import Mathlib

/-!
Verification development for the multi-tenant task-management backend.

The definitions below are a shallow embedding of the repository's Python
source.  Machine state (the relational store) is modeled as a `List` of
records; each SQLAlchemy/SQLModel query method is translated to a pure
function on that state.  Server-assigned clocks and generated identifiers
are passed explicitly (`now`, `fresh`).  Fallible operations return
`Option`/sum-shaped results mirroring the exact return sites of the code.
-/

namespace Todo

/-! ### Python / SQL string primitives used by the code -/

/-- Whitespace for Python `str.strip()` (ASCII subset; the repository only
ever strips ASCII input). -/
def isPySpace (c : Char) : Bool :=
  c = ' ' || c = '\t' || c = '\n' || c = '\r' || c = '\x0b' || c = '\x0c'

/-- Python `str.strip()` on a list of characters. -/
def pyStripList (l : List Char) : List Char :=
  ((l.dropWhile isPySpace).reverse.dropWhile isPySpace).reverse

/-- Python `str.strip()`. -/
def pyStrip (s : String) : String := ⟨pyStripList s.data⟩

/-- SQL `trim()` as used by the `chk_task_title_not_empty` check constraint:
strips space characters (only `' '`) from both ends. -/
def sqlTrimList (l : List Char) : List Char :=
  ((l.dropWhile (· = ' ')).reverse.dropWhile (· = ' ')).reverse

/-- SQL `trim()` on a `String`. -/
def sqlTrim (s : String) : String := ⟨sqlTrimList s.data⟩

/-- Python slicing `s[:n]` (by code points). -/
def takeStr (n : Nat) (s : String) : String := ⟨s.data.take n⟩

/-- ASCII lowering applied by `func.lower` / `ILIKE`; `Char.toLower` maps
exactly the characters `A`..`Z`. -/
def lowerStr (s : String) : String := ⟨s.data.map Char.toLower⟩

/-! ### Data model (`app/models/task.py`) -/

/-- Status enumeration `TaskStatus`: closed enumeration `pending | completed`. -/
inductive TaskStatus
  | pending
  | completed
deriving DecidableEq, Repr

/-- A row of the `task` table.  `id` models the UUID primary key as the
128-bit integer it encodes; timestamps are abstract clock values. -/
structure Task where
  id : Nat
  user_id : String
  title : String
  description : Option String
  status : TaskStatus
  created_at : Nat
  updated_at : Nat
deriving DecidableEq, Repr

/-! ### Task store operations (`app/models/task.py`) -/

/-- Models `select(Task).where(Task.id == task_id, Task.user_id == user_id)` with
`scalar_one_or_none()`: both constraints sit in one query predicate. -/
def get_task (s : List Task) (user_id : String) (task_id : Nat) : Option Task :=
  s.find? (fun t => t.id == task_id && t.user_id == user_id)

/-- Values a caller can place in the sparse `updates` dictionary. -/
inductive FieldValue
  | str (v : String)
  | optStr (v : Option String)
  | status (v : TaskStatus)
deriving DecidableEq, Repr

/-- The allow list `allowed_fields = \x7b"title", "description", "status"\x7d` from
`Task.update_task`. -/
def allowedFields : List String := ["title", "description", "status"]

/-- One `setattr(task, field, value)` step for an allowed field. -/
def setField (t : Task) (kv : String × FieldValue) : Task :=
  if kv.1 = "title" then
    match kv.2 with
    | .str v => { t with title := v }
    | _ => t
  else if kv.1 = "description" then
    match kv.2 with
    | .optStr v => { t with description := v }
    | _ => t
  else if kv.1 = "status" then
    match kv.2 with
    | .status v => { t with status := v }
    | _ => t
  else t

/-- The `for field, value in updates.items(): if field in allowed_fields:
setattr(task, field, value)` loop of `Task.update_task`. -/
def applyUpdates (t : Task) (updates : List (String × FieldValue)) : Task :=
  updates.foldl (fun acc kv => if allowedFields.contains kv.1 then setField acc kv else acc) t

/-- Models `Task.update_task`: owner-scoped lookup, allow-listed field application,
then flush.  The `onupdate=func.now()` refresh of `updated_at` fires only
when the flush actually issues an UPDATE; SQLAlchemy's unit of work skips
the write when every set value equals the loaded value, so `updated_at` is
bumped exactly when some column value changed. -/
def update_task (s : List Task) (task_id : Nat) (user_id : String)
    (updates : List (String × FieldValue)) (now : Nat) : Option Task × List Task :=
  match s.find? (fun t => t.id == task_id && t.user_id == user_id) with
  | none => (none, s)
  | some t =>
    let t1 := applyUpdates t updates
    let t2 := if t1 = t then t1 else { t1 with updated_at := now }
    (some t2, s.map (fun u => if u.id == task_id && u.user_id == user_id then t2 else u))

/-- Models `Task.delete_task`: owner-scoped lookup, hard delete, `False` when not
found or not owned. -/
def delete_task (s : List Task) (task_id : Nat) (user_id : String) : Bool × List Task :=
  match s.find? (fun t => t.id == task_id && t.user_id == user_id) with
  | none => (false, s)
  | some t => (true, s.erase t)

/-- Models `Task.get_by_user`: all tasks of one owner. -/
def get_by_user (s : List Task) (user_id : String) : List Task :=
  s.filter (fun t => t.user_id == user_id)

/-- Models `Task.get_by_user_and_status`. -/
def get_by_user_and_status (s : List Task) (user_id : String) (st : TaskStatus) : List Task :=
  s.filter (fun t => t.user_id == user_id && t.status == st)

/-! ### Request schemas (`app/schemas/task.py`) -/

/-- Sort field enumeration `SortField`. -/
inductive SortField
  | created_at
  | title
deriving DecidableEq, Repr

/-- Sort direction enumeration `SortOrder`. -/
inductive SortOrder
  | asc
  | desc
deriving DecidableEq, Repr

/-- Models `TaskCreate.title`: `Field(..., min_length=1, max_length=255)` on the raw
(untrimmed) string; pydantic length counts code points. -/
def taskCreateValid (title : String) : Bool :=
  1 ≤ title.length && title.length ≤ 255

/-- Models `TaskUpdate.title`: `Field(default=None, min_length=1, max_length=255)`;
an absent title is valid, a present one is length-checked untrimmed. -/
def taskUpdateTitleValid (title : Option String) : Bool :=
  match title with
  | none => true
  | some t => 1 ≤ t.length && t.length ≤ 255

/-! ### SQL `LIKE` pattern matching

`list_tasks` interpolates the search term into `f"%\x7bsearch_term\x7d%"` and
passes it to `ilike`, so LIKE metacharacters inside the term keep their
pattern meaning.  `likeMatch` implements PostgreSQL `LIKE`: `%` matches any
sequence, `_` any single character, and backslash escapes the next pattern
character (a dangling final escape, unreachable from the `%`-wrapped
patterns the endpoint builds, matches nothing). -/

def likeMatchF : Nat → List Char → List Char → Bool
  | _, [], s => s.isEmpty
  | 0, _ :: _, _ => false
  | f + 1, p :: ps, s =>
    if p = '%' then
      match s with
      | [] => likeMatchF f ps []
      | _ :: cs => likeMatchF f ps s || likeMatchF f (p :: ps) cs
    else if p = '_' then
      match s with
      | [] => false
      | _ :: cs => likeMatchF f ps cs
    else if p = '\\' then
      match ps with
      | [] => false
      | pp :: ps2 =>
        match s with
        | [] => false
        | c :: cs => pp == c && likeMatchF f ps2 cs
    else
      match s with
      | [] => false
      | c :: cs => p == c && likeMatchF f ps cs

/-- Entry point: every recursive step of `likeMatchF` lowers
`pattern.length + string.length`, so with this starting fuel the
out-of-fuel clause is unreachable and the function computes the plain
recursive LIKE semantics. -/
def likeMatch (p s : List Char) : Bool :=
  likeMatchF (p.length + s.length + 1) p s

/-- The pattern `f"%\x7bterm\x7d%"` built by the endpoint. -/
def searchPattern (term : String) : List Char :=
  '%' :: term.data ++ ['%']

/-- Models `column.ilike(pattern)`: case-insensitive LIKE (lower both sides). -/
def ilike (field : String) (pattern : List Char) : Bool :=
  likeMatch (pattern.map Char.toLower) (field.data.map Char.toLower)

/-- The search predicate of `list_tasks`: `Task.title.ilike(p) OR
Task.description.ilike(p)`; a NULL description never matches. -/
def searchHit (t : Task) (term : String) : Bool :=
  ilike t.title (searchPattern term) ||
    match t.description with
    | some d => ilike d (searchPattern term)
    | none => false

/-! ### Sorting (`ORDER BY` of `list_tasks`) -/

/-- Kernel-computable lexicographic comparison on character lists (the
collation the model fixes for `ORDER BY` on strings). -/
def charListLe : List Char → List Char → Bool
  | [], _ => true
  | _ :: _, [] => false
  | a :: as_, b :: bs => if a = b then charListLe as_ bs else decide (a < b)

/-- The comparator chosen by `list_tasks`: `func.lower(Task.title)` for the
title field, `Task.created_at` otherwise, in the requested direction. -/
def taskLeB (sort : SortField) (ord : SortOrder) (a b : Task) : Bool :=
  match sort, ord with
  | .created_at, .asc => a.created_at ≤ b.created_at
  | .created_at, .desc => b.created_at ≤ a.created_at
  | .title, .asc => charListLe (lowerStr a.title).data (lowerStr b.title).data
  | .title, .desc => charListLe (lowerStr b.title).data (lowerStr a.title).data

/-- The `ORDER BY` step modeled as a deterministic (stable insertion) sort with the
chosen comparator. -/
def sortTasks (sort : SortField) (ord : SortOrder) (l : List Task) : List Task :=
  l.insertionSort (fun a b => taskLeB sort ord a b = true)

/-! ### `GET /tasks` (`app/api/v1/tasks.py::list_tasks`) -/

/-- The full list pipeline of the endpoint: owner scope, optional status
filter, optional trimmed non-empty search (via `ILIKE`), `ORDER BY`, then
`OFFSET`/`LIMIT`. -/
def list_tasks (s : List Task) (user_id : String) (offset limit : Nat)
    (status : Option TaskStatus) (search : Option String)
    (sort : SortField) (ord : SortOrder) : List Task :=
  let q := s.filter (fun t => t.user_id == user_id)
  let q := match status with
    | some st => q.filter (fun t => t.status == st)
    | none => q
  let q := match search with
    | some srch =>
      let term := pyStrip srch
      if term ≠ "" then q.filter (fun t => searchHit t term) else q
    | none => q
  ((sortTasks sort ord q).drop offset).take limit

/-! ### `POST /tasks` (`app/api/v1/tasks.py::create_task`) -/

/-- How a create request ends: a stored task, a 422 from the contract
layer, or a database check-constraint violation (which surfaces as an
unexpected error, not as a validation failure). -/
inductive CreateResult
  | created (t : Task)
  | validationError
  | dbError
deriving DecidableEq, Repr

/-- The create endpoint: `TaskCreate` validation on the raw payload, then
`Task(user_id=.., title=task_in.title, description=task_in.description)`
inserted as-is with `status` defaulted to pending and both timestamps
assigned `func.now()` of the same statement.  The database check constraint
`length(trim(title)) > 0` rejects the insert of an all-space title. -/
def create_task (s : List Task) (user_id : String) (title : String)
    (description : Option String) (fresh now : Nat) : CreateResult × List Task :=
  if ¬ taskCreateValid title then (.validationError, s)
  else if sqlTrim title = "" then (.dbError, s)
  else
    let t : Task := ⟨fresh, user_id, title, description, .pending, now, now⟩
    (.created t, s ++ [t])

end Todo

namespace Todo

/-! ### Python `uuid.UUID(str)` parsing

CPython normalizes the string by deleting every occurrence of `urn:` and
`uuid:`, stripping curly braces from both ends, deleting hyphens, then
requires exactly 32 hexadecimal digits.  (The model reads the 32 digits
with a plain hex-digit grammar.)  A failed parse raises `ValueError`, which
every tool catches. -/

/-- Fuelled worker for `removeOcc`; each step consumes at least one
character and one unit of fuel, so fuel `l.length` never runs out. -/
def removeOccF (p0 : Char) (prest : List Char) : Nat → List Char → List Char
  | _, [] => []
  | 0, l => l
  | f + 1, c :: cs =>
    if (p0 :: prest).isPrefixOf (c :: cs) then removeOccF p0 prest f (cs.drop prest.length)
    else c :: removeOccF p0 prest f cs

/-- Delete every (left-to-right, non-overlapping) occurrence of the
non-empty pattern `p0 :: prest`, as Python `str.replace(pat, "")`. -/
def removeOcc (p0 : Char) (prest : List Char) (l : List Char) : List Char :=
  removeOccF p0 prest l.length l

/-- Opening curly brace (written numerically). -/
def lbrace : Char := Char.ofNat 123

/-- Closing curly brace (written numerically). -/
def rbrace : Char := Char.ofNat 125

/-- Python `str.strip("\x7b\x7d")`. -/
def stripBraces (l : List Char) : List Char :=
  let isBrace : Char → Bool := fun c => c = lbrace || c = rbrace
  ((l.dropWhile isBrace).reverse.dropWhile isBrace).reverse

/-- Hexadecimal digit test. -/
def isHexDigit (c : Char) : Bool :=
  ('0' ≤ c && c ≤ '9') || ('a' ≤ c && c ≤ 'f') || ('A' ≤ c && c ≤ 'F')

/-- Value of one hexadecimal digit. -/
def hexVal (c : Char) : Nat :=
  if '0' ≤ c && c ≤ '9' then c.toNat - '0'.toNat
  else if 'a' ≤ c && c ≤ 'f' then c.toNat - 'a'.toNat + 10
  else c.toNat - 'A'.toNat + 10

/-- Models `UUID(task_id)`: `none` when CPython would raise `ValueError`. -/
def parseUUID (s : String) : Option Nat :=
  let h := removeOcc '-' [] (stripBraces (removeOcc 'u' "uid:".data (removeOcc 'u' "rn:".data s.data)))
  if h.length = 32 && h.all isHexDigit then
    some (h.foldl (fun acc c => acc * 16 + hexVal c) 0)
  else none

/-! ### Tool-Invocation Bridge (`app/services/mcp_server.py`,
`app/services/mcp_tools.py`)

Each tool returns a dictionary; the inductives below have one constructor
per `return` site.  `ToolOutcome.raised` records an exception escaping the
tool to its caller. -/

/-- Either the dictionary a tool returned, or a fault that propagated. -/
inductive ToolOutcome (α : Type)
  | ret (v : α)
  | raised (msg : String)
deriving DecidableEq, Repr

/-- Return sites of the `add_task` tool. -/
inductive AddToolDict
  | created (task_id : Nat) (title : String)
  | errTitleRequired
deriving DecidableEq, Repr

/-- Models `add_task` of `mcp_server.py` (explicit `user_id`, own session):
reject missing/whitespace title, trim, hard-truncate to 255 code points,
insert with pending status and server timestamps. -/
def mcp_add_task (s : List Task) (fresh now : Nat)
    (user_id title description : String) : ToolOutcome AddToolDict × List Task :=
  if title = "" || pyStrip title = "" then (.ret .errTitleRequired, s)
  else
    let ti := pyStrip title
    let ti := if 255 < ti.length then takeStr 255 ti else ti
    let desc := if description = "" then none else some (pyStrip description)
    let task : Task := ⟨fresh, user_id, ti, desc, .pending, now, now⟩
    (.ret (.created fresh ti), s ++ [task])

/-- Return sites of the `list_tasks` tool. -/
inductive ListToolDict
  | listing (tasks : List Task) (count : Nat) (filt : String)
deriving DecidableEq, Repr

/-- Models the `list_tasks` tool: status filter string `"all" | "pending" |
"completed"` (anything else behaves as `"all"`). -/
def mcp_list_tasks (s : List Task) (user_id status : String) :
    ToolOutcome ListToolDict × List Task :=
  let tasks :=
    if status = "pending" then get_by_user_and_status s user_id .pending
    else if status = "completed" then get_by_user_and_status s user_id .completed
    else get_by_user s user_id
  (.ret (.listing tasks tasks.length status), s)

/-- Return sites of the `complete_task` tool. -/
inductive CompleteToolDict
  | completed (task_id : Nat) (title : String)
  | errNotFound (task_id_raw : String)
deriving DecidableEq, Repr

/-- Models the `complete_task` tool: unparseable id is answered with the
`Task not found` error object; otherwise `Task.update_task` with
`\x7b"status": TaskStatus.COMPLETED\x7d`. -/
def mcp_complete_task (s : List Task) (user_id task_id : String) (now : Nat) :
    ToolOutcome CompleteToolDict × List Task :=
  match parseUUID task_id with
  | none => (.ret (.errNotFound task_id), s)
  | some tid =>
    match update_task s tid user_id [("status", .status .completed)] now with
    | (none, s2) => (.ret (.errNotFound task_id), s2)
    | (some t, s2) => (.ret (.completed t.id t.title), s2)

/-- Return sites of the `delete_task` tool. -/
inductive DeleteToolDict
  | deleted (task_id_raw : String) (title : String)
  | errNotFound (task_id_raw : String)
deriving DecidableEq, Repr

/-- Models the `delete_task` tool: unparseable id is `Task not found`;
otherwise an owner-scoped select (to report the title) then
`Task.delete_task`. -/
def mcp_delete_task (s : List Task) (user_id task_id : String) :
    ToolOutcome DeleteToolDict × List Task :=
  match parseUUID task_id with
  | none => (.ret (.errNotFound task_id), s)
  | some tid =>
    match get_task s user_id tid with
    | none => (.ret (.errNotFound task_id), s)
    | some t =>
      match delete_task s tid user_id with
      | (false, s2) => (.ret (.errNotFound task_id), s2)
      | (true, s2) => (.ret (.deleted task_id t.title), s2)

/-- Return sites of the `update_task` tool. -/
inductive UpdateToolDict
  | updated (task_id : Nat) (title : String) (changes : List String)
  | errNotFound (task_id_raw : String)
  | errNoUpdates
  | errNoValidUpdates
deriving DecidableEq, Repr

/-- Models the `update_task` tool: no-argument guard, UUID parse, then a
sparse update map where a present-but-empty-after-trim title is dropped
(only `if title:` adds it) and a present description is stripped, with
empty mapped to NULL. -/
def mcp_update_task (s : List Task) (user_id task_id : String)
    (title description : Option String) (now : Nat) :
    ToolOutcome UpdateToolDict × List Task :=
  if title = none && description = none then (.ret .errNoUpdates, s)
  else
    match parseUUID task_id with
    | none => (.ret (.errNotFound task_id), s)
    | some tid =>
      let titleUpd := match title with
        | some w =>
          let w := pyStrip w
          if w ≠ "" then [("title", FieldValue.str (if 255 < w.length then takeStr 255 w else w))]
          else []
        | none => []
      let descUpd := match description with
        | some d => [("description", FieldValue.optStr (if d = "" then none else some (pyStrip d)))]
        | none => []
      let updates := titleUpd ++ descUpd
      let changes := (if titleUpd.isEmpty then [] else ["title"]) ++
        (if description = none then [] else ["description"])
      if updates.isEmpty then (.ret .errNoValidUpdates, s)
      else
        match update_task s tid user_id updates now with
        | (none, s2) => (.ret (.errNotFound task_id), s2)
        | (some t, s2) => (.ret (.updated t.id t.title changes), s2)

end Todo

namespace Todo

/-! ### Legacy function-tool mode (`mcp_tools.py`)

In the calm-orbit bridge every tool begins with `session, user_id =
_get_context()`, which raises `RuntimeError` when the module-level context
was not set; the remainder of each tool body is the `mcp_server.py` body
(with `flush` in place of `commit`).  The ambient context is modeled as
`Option String` (the session comes with the store argument). -/

/-- Message of the `RuntimeError` raised by `_get_context`. -/
def ctxNotSetMsg : String := "MCP tools context not set. Call set_context first."

/-- Models the legacy `add_task` function tool. -/
def ctx_add_task (ctx : Option String) (s : List Task) (fresh now : Nat)
    (title description : String) : ToolOutcome AddToolDict × List Task :=
  match ctx with
  | none => (.raised ctxNotSetMsg, s)
  | some user_id => mcp_add_task s fresh now user_id title description

/-- Models the legacy `list_tasks` function tool. -/
def ctx_list_tasks (ctx : Option String) (s : List Task) (status : String) :
    ToolOutcome ListToolDict × List Task :=
  match ctx with
  | none => (.raised ctxNotSetMsg, s)
  | some user_id => mcp_list_tasks s user_id status

/-- Models the legacy `complete_task` function tool. -/
def ctx_complete_task (ctx : Option String) (s : List Task) (task_id : String)
    (now : Nat) : ToolOutcome CompleteToolDict × List Task :=
  match ctx with
  | none => (.raised ctxNotSetMsg, s)
  | some user_id => mcp_complete_task s user_id task_id now

/-- Models the legacy `delete_task` function tool. -/
def ctx_delete_task (ctx : Option String) (s : List Task) (task_id : String) :
    ToolOutcome DeleteToolDict × List Task :=
  match ctx with
  | none => (.raised ctxNotSetMsg, s)
  | some user_id => mcp_delete_task s user_id task_id

/-- Models the legacy `update_task` function tool. -/
def ctx_update_task (ctx : Option String) (s : List Task) (task_id : String)
    (title description : Option String) (now : Nat) :
    ToolOutcome UpdateToolDict × List Task :=
  match ctx with
  | none => (.raised ctxNotSetMsg, s)
  | some user_id => mcp_update_task s user_id task_id title description now

/-! ### Message store (`app/models/message.py`) -/

/-- A row of the `messages` table. -/
structure Message where
  id : Nat
  conversation_id : Nat
  role : String
  content : String
  created_at : Nat
deriving DecidableEq, Repr

/-- Ascending `ORDER BY created_at` comparator. -/
def msgAsc (a b : Message) : Bool := a.created_at ≤ b.created_at

/-- Descending `ORDER BY created_at` comparator. -/
def msgDesc (a b : Message) : Bool := b.created_at ≤ a.created_at

/-- Models `Message.get_by_conversation`: without a limit, the conversation
messages ordered by `created_at` ascending; with a limit, the newest
`limit` (descending order, `LIMIT`) reversed back to chronological order.
The `ORDER BY` is modeled as a deterministic stable sort. -/
def get_by_conversation (msgs : List Message) (conversation_id : Nat)
    (limit : Option Nat) : List Message :=
  let conv := msgs.filter (fun m => m.conversation_id == conversation_id)
  match limit with
  | none => conv.insertionSort (fun a b => msgAsc a b = true)
  | some n => ((conv.insertionSort (fun a b => msgDesc a b = true)).take n).reverse

/-- Models `Message.get_last_n`. -/
def get_last_n (msgs : List Message) (conversation_id : Nat) (n : Nat) : List Message :=
  get_by_conversation msgs conversation_id (some n)

/-! ### Dual-mode authentication
(`phase2-3-fullstack/backend/app/core/auth.py`) -/

/-- An abstract JWT: the secret it verifies under, its algorithm header,
its claims, and whether it is expired. -/
structure JwtToken where
  secret : String
  alg : String
  claims : List (String × String)
  expired : Bool
deriving DecidableEq, Repr

/-- Failure class of the black-box `jwt.decode` (all constructors are
subclasses of `JWTError`). -/
inductive JwtError
  | expiredSignature
  | invalid
deriving DecidableEq, Repr

/-- Claim lookup, `payload.get(key)`. -/
def lookupClaim (key : String) (claims : List (String × String)) : Option String :=
  (claims.find? (fun kv => kv.1 == key)).map (fun kv => kv.2)

/-- Python truthiness of `payload.get("sub")`: `None` and `""` are falsy. -/
def truthy (o : Option String) : Bool :=
  match o with
  | some v => v ≠ ""
  | none => false

/-- Models `jwt.decode(token, secret, algorithms=algs, issuer=iss?)`:
signature/algorithm check, expiry check, optional issuer check; returns
the claims on success. -/
def jwt_decode (tok : JwtToken) (secret : String) (algs : List String)
    (iss : Option String) : Except JwtError (List (String × String)) :=
  if tok.secret ≠ secret || ¬ algs.contains tok.alg then .error .invalid
  else if tok.expired then .error .expiredSignature
  else
    match iss with
    | some i => if lookupClaim "iss" tok.claims = some i then .ok tok.claims else .error .invalid
    | none => .ok tok.claims

/-- The relevant `Settings` fields (`config.py`). -/
structure Settings where
  jwt_secret : String
  jwt_algorithm : String
  better_auth_secret : String
  enable_legacy_tokens : Bool
deriving DecidableEq, Repr

/-- Distinguishable outcomes of a failed authentication, one per `raise`
site of `get_current_user_dual` (all surface as `AuthenticationError`). -/
inductive AuthError
  | invalidOrExpired
  | missingSubClaim
  | betterAuthNotConfigured
deriving DecidableEq, Repr

/-- The Better Auth block of `get_current_user_dual`: the two
`AuthenticationError` raises inside the `try` are not caught by `except
JWTError` and propagate; a `JWTError` becomes `invalidOrExpired`. -/
def betterAuthAttempt (st : Settings) (tok : JwtToken) : Except AuthError String :=
  if st.better_auth_secret = "" then .error .betterAuthNotConfigured
  else
    match jwt_decode tok st.better_auth_secret ["HS256"] (some "better-auth") with
    | .ok payload =>
      match lookupClaim "sub" payload with
      | some uid => if uid ≠ "" then .ok uid else .error .missingSubClaim
      | none => .error .missingSubClaim
    | .error _ => .error .invalidOrExpired

/-- Models `get_current_user_dual` from the token on: when legacy tokens
are allowed, try the legacy decode and return its subject only when that
subject is truthy — on any legacy `JWTError`, and equally when the decoded
claims lack a truthy `sub`, control reaches the Better Auth block. -/
def get_current_user_dual (st : Settings) (tok : JwtToken) : Except AuthError String :=
  if st.enable_legacy_tokens then
    match jwt_decode tok st.jwt_secret [st.jwt_algorithm] none with
    | .ok payload =>
      match lookupClaim "sub" payload with
      | some uid => if uid ≠ "" then .ok uid else betterAuthAttempt st tok
      | none => betterAuthAttempt st tok
    | .error _ => betterAuthAttempt st tok
  else betterAuthAttempt st tok

end Todo

namespace Todo

/-! ### Spec-side reference definitions

For the refinement claims, a second definition written after the words of
the specification, to be compared with the definitions obtained from the
code. -/

/-- Spec words: substring test, `needle` occurs contiguously in the list. -/
def isSub (needle : List Char) : List Char → Bool
  | [] => needle.isEmpty
  | c :: cs => needle.isPrefixOf (c :: cs) || isSub needle cs

/-- Spec words: case-insensitive substring match of `term` against `field`. -/
def containsCI (field term : String) : Bool :=
  isSub (term.data.map Char.toLower) (field.data.map Char.toLower)

/-- Spec words for the search step: keep tasks where the term is a
case-insensitive substring of the title or of the description. -/
def searchHitSpec (t : Task) (term : String) : Bool :=
  containsCI t.title term ||
    match t.description with
    | some d => containsCI d term
    | none => false

/-- Spec words for the list pipeline: owner scope, status equality,
case-insensitive substring search (trimmed, empty treated as no filter),
then sort, then offset/limit. -/
def list_tasks_specPipeline (s : List Task) (user_id : String) (offset limit : Nat)
    (status : Option TaskStatus) (search : Option String)
    (sort : SortField) (ord : SortOrder) : List Task :=
  let q := s.filter (fun t => t.user_id == user_id)
  let q := match status with
    | some st => q.filter (fun t => t.status == st)
    | none => q
  let q := match search with
    | some srch =>
      let term := pyStrip srch
      if term ≠ "" then q.filter (fun t => searchHitSpec t term) else q
    | none => q
  ((sortTasks sort ord q).drop offset).take limit

/-- Spec words for `lastNMessages`: the last `n` elements of the full
message history in chronological (oldest-first) order. -/
def lastN_specChronological (msgs : List Message) (conversation_id : Nat) (n : Nat) :
    List Message :=
  let asc := get_by_conversation msgs conversation_id none
  asc.drop (asc.length - n)

end Todo

namespace Todo

/-! ### Helper lemmas about the store operations -/

/-- Distinct primary keys make membership determine the row: two tasks in
a store with `Nodup` ids and the same id are the same row. -/
theorem eq_of_mem_of_id_eq {s : List Task} (hnodup : (s.map Task.id).Nodup)
    {u t : Task} (hu : u ∈ s) (ht : t ∈ s) (hid : u.id = t.id) : u = t :=
  List.inj_on_of_nodup_map hnodup hu ht hid

/-- The owner-scoped find of a present, owned task returns exactly it. -/
theorem find?_owned {s : List Task} {t : Task} {uid : String}
    (hnodup : (s.map Task.id).Nodup) (hmem : t ∈ s) (huid : t.user_id = uid) :
    s.find? (fun u => u.id == t.id && u.user_id == uid) = some t := by
  induction s with
  | nil => cases hmem
  | cons a rest ih =>
    rcases List.mem_cons.mp hmem with h | h
    · subst h
      simp [List.find?_cons, huid]
    · have hid : a.id ≠ t.id := by
        intro heq
        have : a = t := by
          refine eq_of_mem_of_id_eq hnodup (List.mem_cons_self a rest) ?_ heq
          exact List.mem_cons_of_mem a h
        have hmem2 : a ∈ rest := this ▸ h
        rw [List.map_cons, List.nodup_cons] at hnodup
        exact hnodup.1 (List.mem_map_of_mem Task.id hmem2)
      have hpred : (a.id == t.id && a.user_id == uid) = false := by
        simp [hid]
      rw [List.find?_cons, hpred]
      refine ih ?_ h
      rw [List.map_cons, List.nodup_cons] at hnodup
      exact hnodup.2

/-- An owner-scoped find over a store containing no row with that id and
owner is empty. -/
theorem find?_unowned {s : List Task} {tid : Nat} {uid : String}
    (h : ∀ u ∈ s, ¬ (u.id = tid ∧ u.user_id = uid)) :
    s.find? (fun u => u.id == tid && u.user_id == uid) = none := by
  refine List.find?_eq_none.mpr (fun u hu => ?_)
  simpa using h u hu

/-- Membership in the list endpoint result forces ownership. -/
theorem mem_list_tasks_owner {s : List Task} {uid : String}
    {offset limit : Nat} {status : Option TaskStatus} {search : Option String}
    {sort : SortField} {ord : SortOrder} {t : Task}
    (hmem : t ∈ list_tasks s uid offset limit status search sort ord) :
    t.user_id = uid := by
  unfold list_tasks at hmem
  have h1 := List.mem_of_mem_drop (List.mem_of_mem_take hmem)
  have h2 := ((List.perm_insertionSort _ _).mem_iff).mp h1
  have h3 : t ∈ s.filter (fun t => t.user_id == uid) := by
    revert h2
    cases status <;> cases search <;>
      simp only [] <;> intro h2
    · exact h2
    · split at h2
      · exact List.mem_of_mem_filter h2
      · exact h2
    · exact List.mem_of_mem_filter h2
    · split at h2
      · exact List.mem_of_mem_filter (List.mem_of_mem_filter h2)
      · exact List.mem_of_mem_filter h2
  simpa using List.of_mem_filter h3

end Todo

namespace Todo

/-- C1: for distinct owners A and B and a task of A, the B-scoped
operations behave exactly as for a task id bound to no task at all:
`get` is `none`, `update` is `none` with the store untouched, `delete`
returns `false` with the store untouched, the task is absent from every
B-scoped list result, and the same outcomes hold verbatim for an id bound
to no task — there is no distinct forbidden signal, and each lookup
constrains id and owner in the single `find?` predicate of `get_task`,
`update_task` and `delete_task`. -/
theorem C1_user_isolation
    (s : List Task) (A B : String) (t : Task)
    (hnodup : (s.map Task.id).Nodup) (hmem : t ∈ s)
    (howner : t.user_id = A) (hne : A ≠ B)
    (updates : List (String × FieldValue)) (now : Nat)
    (offset limit : Nat) (status : Option TaskStatus) (search : Option String)
    (sort : SortField) (ord : SortOrder) :
    get_task s B t.id = none ∧
    update_task s t.id B updates now = (none, s) ∧
    delete_task s t.id B = (false, s) ∧
    t ∉ list_tasks s B offset limit status search sort ord ∧
    (∀ tid, (∀ u ∈ s, u.id ≠ tid) →
      get_task s B tid = none ∧
      update_task s tid B updates now = (none, s) ∧
      delete_task s tid B = (false, s)) := by
  have hfind : s.find? (fun u => u.id == t.id && u.user_id == B) = none := by
    refine find?_unowned (fun u hu => ?_)
    rintro ⟨hid, hB⟩
    have : u = t := eq_of_mem_of_id_eq hnodup hu hmem hid
    exact hne (howner ▸ this ▸ hB)
  refine ⟨hfind, ?_, ?_, ?_, ?_⟩
  · unfold update_task
    rw [hfind]
  · unfold delete_task
    rw [hfind]
  · intro hmem2
    exact hne (howner.symm.trans (mem_list_tasks_owner hmem2))
  · intro tid htid
    have hfind2 : s.find? (fun u => u.id == tid && u.user_id == B) = none := by
      refine find?_unowned (fun u hu => ?_)
      rintro ⟨hid, _⟩
      exact htid u hu hid
    refine ⟨hfind2, ?_, ?_⟩
    · unfold update_task
      rw [hfind2]
    · unfold delete_task
      rw [hfind2]

/-- Concrete instantiation of `C1_user_isolation`. -/
theorem C1_user_isolation_witness :
    get_task [⟨1, "A", "buy milk", none, .pending, 0, 0⟩] "B" 1 = none ∧
    delete_task [⟨1, "A", "buy milk", none, .pending, 0, 0⟩] 1 "B" =
      (false, [⟨1, "A", "buy milk", none, .pending, 0, 0⟩]) := by
  have h := C1_user_isolation [⟨1, "A", "buy milk", none, .pending, 0, 0⟩] "A" "B"
    ⟨1, "A", "buy milk", none, .pending, 0, 0⟩
    (by decide) (by simp) rfl (by decide) [] 0 0 20 none none .created_at .desc
  exact ⟨h.1, h.2.2.1⟩

end Todo

namespace Todo

/-- A single `setattr` step never touches id, owner or creation time. -/
theorem setField_frame (t : Task) (kv : String × FieldValue) :
    (setField t kv).id = t.id ∧ (setField t kv).user_id = t.user_id ∧
      (setField t kv).created_at = t.created_at ∧
      (setField t kv).updated_at = t.updated_at := by
  obtain ⟨k, v⟩ := kv
  cases v <;> simp only [setField] <;> split_ifs <;> simp

/-- The whole update loop never touches id, owner or creation time. -/
theorem applyUpdates_frame (t : Task) (updates : List (String × FieldValue)) :
    (applyUpdates t updates).id = t.id ∧ (applyUpdates t updates).user_id = t.user_id ∧
      (applyUpdates t updates).created_at = t.created_at ∧
      (applyUpdates t updates).updated_at = t.updated_at := by
  induction updates generalizing t with
  | nil => simp [applyUpdates]
  | cons kv rest ih =>
    simp only [applyUpdates, List.foldl_cons]
    by_cases h : allowedFields.contains kv.1 = true
    · simp only [h, if_pos]
      have h1 := ih (setField t kv)
      have h2 := setField_frame t kv
      exact ⟨h1.1.trans h2.1, (h1.2.1).trans h2.2.1, (h1.2.2.1).trans h2.2.2.1,
        (h1.2.2.2).trans h2.2.2.2⟩
    · simp only [h]
      exact ih t

/-- Keys outside the allow list contribute nothing to the update loop. -/
theorem applyUpdates_filter (t : Task) (updates : List (String × FieldValue)) :
    applyUpdates t (updates.filter (fun kv => allowedFields.contains kv.1)) =
      applyUpdates t updates := by
  induction updates generalizing t with
  | nil => rfl
  | cons kv rest ih =>
    by_cases h : allowedFields.contains kv.1 = true
    · simp only [applyUpdates, List.filter_cons, h, if_pos, List.foldl_cons]
      exact ih (setField t kv)
    · simp only [applyUpdates, List.filter_cons, h, List.foldl_cons,
        Bool.false_eq_true, if_false, if_neg]
      exact ih t

/-- C6: a partial update can change only title, description and status.
Keys outside that allow list are silently ignored — the operation computes
exactly what it computes on the allow-list-filtered input, so it still
succeeds — and the returned task keeps the identifier, owner identifier
and creation timestamp of the stored row (the row `get_task` finds). -/
theorem C6_update_frame
    (s : List Task) (task_id : Nat) (user_id : String)
    (updates : List (String × FieldValue)) (now : Nat) :
    update_task s task_id user_id updates now =
      update_task s task_id user_id
        (updates.filter (fun kv => allowedFields.contains kv.1)) now ∧
    ((update_task s task_id user_id updates now).1.isSome ↔
      (get_task s user_id task_id).isSome) ∧
    (∀ t2, (update_task s task_id user_id updates now).1 = some t2 →
      ∃ t, get_task s user_id task_id = some t ∧
        t2.id = t.id ∧ t2.user_id = t.user_id ∧ t2.created_at = t.created_at) := by
  refine ⟨?_, ?_, ?_⟩
  · unfold update_task
    cases hf : s.find? (fun t => t.id == task_id && t.user_id == user_id) with
    | none => rfl
    | some t =>
      dsimp only
      rw [applyUpdates_filter]
  · unfold update_task get_task
    cases hf : s.find? (fun t => t.id == task_id && t.user_id == user_id) <;> simp
  · intro t2 h2
    unfold update_task at h2
    unfold get_task
    cases hf : s.find? (fun t => t.id == task_id && t.user_id == user_id) with
    | none => rw [hf] at h2; simp at h2
    | some t =>
      rw [hf] at h2
      simp only [Option.some.injEq] at h2
      refine ⟨t, rfl, ?_⟩
      have hframe := applyUpdates_frame t updates
      by_cases heq : applyUpdates t updates = t
      · rw [← h2]
        simp [heq]
      · rw [← h2]
        simp [heq, hframe.1, hframe.2.1, hframe.2.2.1]

/-- Concrete instantiation of `C6_update_frame`: an update carrying a
foreign `user_id` key still succeeds and changes nothing but the allowed
fields. -/
theorem C6_update_frame_witness :
    (update_task [⟨1, "A", "x", none, .pending, 3, 3⟩] 1 "A"
        [("user_id", FieldValue.str "B"), ("status", FieldValue.status .completed)] 9).1 =
      some ⟨1, "A", "x", none, .completed, 3, 9⟩ := by
  have h := (C6_update_frame [⟨1, "A", "x", none, .pending, 3, 3⟩] 1 "A"
    [("user_id", FieldValue.str "B"), ("status", FieldValue.status .completed)] 9).1
  rw [h]
  decide

end Todo

namespace Todo

/-- C8 claim as stated is false: re-completing an already-completed task
leaves `updated_at` untouched (here 5, although the flush clock is 9),
because no column value changes and the store write is skipped. -/
theorem C8_counterexample_no_refresh :
    (update_task [⟨1, "u", "x", none, .completed, 0, 5⟩] 1 "u"
        [("status", FieldValue.status .completed)] 9).1 =
      some ⟨1, "u", "x", none, .completed, 0, 5⟩ ∧ (5 : Nat) ≠ 9 := by
  constructor
  · rfl
  · decide

/-- C8 amended: repeating the `status: completed` update on an
already-completed owned task succeeds and returns the task with status
still completed, and — because every applied value equals the stored
value, so the unit of work skips the UPDATE — with `updated_at` (and the
whole row, and the whole store) unchanged. -/
theorem C8_amended_idempotent
    (s : List Task) (t : Task) (uid : String) (now : Nat)
    (hnodup : (s.map Task.id).Nodup) (hmem : t ∈ s) (huid : t.user_id = uid)
    (hst : t.status = .completed) :
    update_task s t.id uid [("status", FieldValue.status .completed)] now = (some t, s) := by
  have happ : applyUpdates t [("status", FieldValue.status .completed)] = t := by
    obtain ⟨i, u, ti, d, st0, c, up⟩ := t
    simp only [Task.mk.injEq] at hst ⊢
    subst hst
    rfl
  unfold update_task
  rw [find?_owned hnodup hmem huid]
  dsimp only
  rw [happ]
  simp only [if_pos rfl]
  refine Prod.ext rfl ?_
  have hpt : ∀ u ∈ s, (if (u.id == t.id && u.user_id == uid) = true then t else u) = u := by
    intro u hu
    by_cases hc : (u.id == t.id && u.user_id == uid) = true
    · rw [Bool.and_eq_true] at hc
      have : u = t := eq_of_mem_of_id_eq hnodup hu hmem (by simpa using hc.1)
      simp [this]
    · simp [hc]
  calc s.map (fun u => if (u.id == t.id && u.user_id == uid) = true then t else u)
      = s.map id := List.map_congr_left (fun a ha => hpt a ha)
    _ = s := List.map_id s

/-- Concrete instantiation of `C8_amended_idempotent`. -/
theorem C8_amended_idempotent_witness :
    update_task [⟨1, "u", "x", none, .completed, 0, 5⟩] 1 "u"
        [("status", FieldValue.status .completed)] 9 =
      (some ⟨1, "u", "x", none, .completed, 0, 5⟩,
        [⟨1, "u", "x", none, .completed, 0, 5⟩]) :=
  C8_amended_idempotent [⟨1, "u", "x", none, .completed, 0, 5⟩]
    ⟨1, "u", "x", none, .completed, 0, 5⟩ "u" 9 (by decide) (by simp) rfl rfl

/-- C2 claim as stated is false: a token that legacy-verifies structurally
(correct secret and algorithm, not expired) but whose claims lack `sub`
does not hard-fail with the missing-claim error; the Better Auth strategy
is attempted and its failure (`invalidOrExpired`, from the secret
mismatch) is what surfaces. -/
theorem C2_counterexample_fallthrough :
    get_current_user_dual ⟨"legacy", "HS256", "ba", true⟩
        ⟨"legacy", "HS256", [("x", "y")], false⟩ =
      .error .invalidOrExpired ∧
    jwt_decode ⟨"legacy", "HS256", [("x", "y")], false⟩ "legacy" ["HS256"] none =
      .ok [("x", "y")] ∧
    lookupClaim "sub" [("x", "y")] = none ∧
    AuthError.invalidOrExpired ≠ AuthError.missingSubClaim := by
  refine ⟨rfl, rfl, rfl, by decide⟩

/-- C2 amended: when legacy tokens are allowed and the legacy decode
succeeds structurally but yields no truthy `sub` claim, authentication
does not hard-fail at that point — the outcome is exactly that of the
Better Auth attempt, the same fall-through taken on legacy decode
failures (and only inside that second attempt is a missing `sub` a hard
`AuthenticationFailure`). -/
theorem C2_amended_fallthrough
    (st : Settings) (tok : JwtToken) (p : List (String × String))
    (hlegacy : st.enable_legacy_tokens = true)
    (hdec : jwt_decode tok st.jwt_secret [st.jwt_algorithm] none = .ok p)
    (hsub : truthy (lookupClaim "sub" p) = false) :
    get_current_user_dual st tok = betterAuthAttempt st tok := by
  unfold get_current_user_dual
  rw [hlegacy]
  simp only [if_pos rfl, hdec]
  cases hlook : lookupClaim "sub" p with
  | none => rfl
  | some uid =>
    rw [hlook] at hsub
    simp only [truthy, decide_eq_false_iff_not, not_not] at hsub
    simp [hsub]

/-- Concrete instantiation of `C2_amended_fallthrough`. -/
theorem C2_amended_fallthrough_witness :
    get_current_user_dual ⟨"legacy", "HS256", "ba", true⟩
        ⟨"legacy", "HS256", [("x", "y")], false⟩ =
      betterAuthAttempt ⟨"legacy", "HS256", "ba", true⟩
        ⟨"legacy", "HS256", [("x", "y")], false⟩ :=
  C2_amended_fallthrough ⟨"legacy", "HS256", "ba", true⟩
    ⟨"legacy", "HS256", [("x", "y")], false⟩ [("x", "y")] rfl rfl rfl

end Todo

namespace Todo

/-- Python strip never lengthens a string. -/
theorem pyStrip_length_le (s : String) : (pyStrip s).length ≤ s.length := by
  show (pyStripList s.data).length ≤ s.data.length
  unfold pyStripList
  have h1 : (s.data.dropWhile isPySpace).length ≤ s.data.length :=
    (List.dropWhile_sublist _).length_le
  have h2 : ((s.data.dropWhile isPySpace).reverse.dropWhile isPySpace).length ≤
      (s.data.dropWhile isPySpace).reverse.length :=
    (List.dropWhile_sublist _).length_le
  simp only [List.length_reverse] at h2 ⊢
  omega

/-- C4 claim as stated is false on the HTTP create path: the title is
stored untrimmed (leading spaces preserved), and an all-space title passes
the contract-layer validation — it is stopped only by the database check
constraint, which is not a validation failure. -/
theorem C4_counterexample_create_untrimmed :
    create_task [] "u" "  milk" none 1 7 =
      (.created ⟨1, "u", "  milk", none, .pending, 7, 7⟩,
        [⟨1, "u", "  milk", none, .pending, 7, 7⟩]) ∧
    pyStrip "  milk" = "milk" ∧ ("  milk" : String) ≠ "milk" ∧
    create_task [] "u" " " none 1 7 = (.dbError, []) ∧
    taskCreateValid " " = true := by
  exact ⟨rfl, by decide, by decide, rfl, rfl⟩

/-- C4 amended: the create endpoint validates the raw title (1..255 code
points, no trimming); every accepted creation stores the title exactly as
supplied, with status pending, the supplied (possibly null) description,
and `updated_at` equal to `created_at`, and an immediate owner-scoped
fetch returns exactly that row. -/
theorem C4_amended_create_roundtrip
    (s : List Task) (uid title : String) (desc : Option String) (fresh now : Nat)
    (hvalid : taskCreateValid title = true) (htrim : sqlTrim title ≠ "")
    (hfresh : ∀ u ∈ s, u.id ≠ fresh) :
    create_task s uid title desc fresh now =
      (.created ⟨fresh, uid, title, desc, .pending, now, now⟩,
        s ++ [⟨fresh, uid, title, desc, .pending, now, now⟩]) ∧
    get_task (s ++ [⟨fresh, uid, title, desc, .pending, now, now⟩]) uid fresh =
      some ⟨fresh, uid, title, desc, .pending, now, now⟩ := by
  constructor
  · unfold create_task
    simp [hvalid, htrim]
  · unfold get_task
    rw [List.find?_append]
    have h1 : s.find? (fun t => t.id == fresh && t.user_id == uid) = none := by
      refine List.find?_eq_none.mpr (fun u hu => ?_)
      simp [hfresh u hu]
    rw [h1]
    simp

/-- Concrete instantiation of `C4_amended_create_roundtrip`. -/
theorem C4_amended_create_roundtrip_witness :
    create_task [] "u" "Buy milk" none 1 7 =
      (.created ⟨1, "u", "Buy milk", none, .pending, 7, 7⟩,
        [⟨1, "u", "Buy milk", none, .pending, 7, 7⟩]) ∧
    get_task [⟨1, "u", "Buy milk", none, .pending, 7, 7⟩] "u" 1 =
      some ⟨1, "u", "Buy milk", none, .pending, 7, 7⟩ := by
  have h := C4_amended_create_roundtrip [] "u" "Buy milk" none 1 7
    (by decide) (by decide) (by simp)
  simpa using h

/-- C10: a title whose trimmed form exceeds 255 code points is not
rejected by the `add_task` tool: the tool stores exactly the first 255
code points of the trimmed title, while the same raw title fails the
HTTP `TaskCreate` validation. -/
theorem C10_add_task_truncates
    (s : List Task) (fresh now : Nat) (uid title description : String)
    (hlong : 255 < (pyStrip title).length) :
    mcp_add_task s fresh now uid title description =
      (.ret (.created fresh (takeStr 255 (pyStrip title))),
        s ++ [⟨fresh, uid, takeStr 255 (pyStrip title),
          (if description = "" then none else some (pyStrip description)),
          .pending, now, now⟩]) ∧
    taskCreateValid title = false := by
  have hne : pyStrip title ≠ "" := by
    intro h
    rw [h] at hlong
    simp [String.length] at hlong
  have hne2 : title ≠ "" := by
    intro h
    rw [h] at hlong
    revert hlong
    decide
  constructor
  · unfold mcp_add_task
    simp [hne, hne2, hlong]
  · have hle := pyStrip_length_le title
    unfold taskCreateValid
    have : ¬ title.length ≤ 255 := by omega
    simp [this]

set_option maxRecDepth 4096 in
/-- Concrete instantiation of `C10_add_task_truncates` at a 256-character
title. -/
theorem C10_add_task_truncates_witness :
    255 < (pyStrip ⟨List.replicate 256 'a'⟩).length ∧
    taskCreateValid ⟨List.replicate 256 'a'⟩ = false := by
  have h := C10_add_task_truncates [] 1 7 "u" ⟨List.replicate 256 'a'⟩ ""
    (by decide)
  exact ⟨by decide, h.2⟩

end Todo

namespace Todo

/-- C5 claim as stated is false in the tool bridge: an update carrying a
whitespace-only title together with a description succeeds, silently drops
the title from the applied field set, and applies the rest — no validation
failure is raised. -/
theorem C5_counterexample_silent_drop :
    mcp_update_task [⟨0, "u", "old", none, .pending, 0, 0⟩] "u"
        "00000000000000000000000000000000" (some "   ") (some "x") 9 =
      (.ret (.updated 0 "old" ["description"]),
        [⟨0, "u", "old", some "x", .pending, 0, 9⟩]) ∧
    pyStrip "   " = "" := by
  constructor
  · rfl
  · rfl

/-- C5 amended: the HTTP contract layer rejects only the exactly-empty
title (a one-space title passes `TaskUpdate` validation untrimmed), and
the tool-bridge update drops a present-but-empty-after-trim title
silently: supplying it together with a description behaves exactly as not
supplying it, and supplying it alone yields the `No valid updates
provided` error object, not a validation failure. -/
theorem C5_amended_empty_title_dropped
    (s : List Task) (uid tid w d : String) (now : Nat)
    (hw : pyStrip w = "") :
    mcp_update_task s uid tid (some w) (some d) now =
      mcp_update_task s uid tid none (some d) now ∧
    (∀ ptid, parseUUID tid = some ptid →
      mcp_update_task s uid tid (some w) none now = (.ret .errNoValidUpdates, s)) ∧
    taskUpdateTitleValid (some " ") = true ∧
    taskUpdateTitleValid (some "") = false := by
  refine ⟨?_, ?_, rfl, rfl⟩
  · unfold mcp_update_task
    cases hp : parseUUID tid with
    | none => simp
    | some ptid => simp [hw]
  · intro ptid hp
    unfold mcp_update_task
    simp [hw, hp]

/-- Concrete instantiation of `C5_amended_empty_title_dropped`. -/
theorem C5_amended_empty_title_dropped_witness :
    mcp_update_task [⟨0, "u", "old", none, .pending, 0, 0⟩] "u"
        "00000000000000000000000000000000" (some "   ") none 9 =
      (.ret .errNoValidUpdates, [⟨0, "u", "old", none, .pending, 0, 0⟩]) := by
  have h := C5_amended_empty_title_dropped [⟨0, "u", "old", none, .pending, 0, 0⟩]
    "u" "00000000000000000000000000000000" "   " "x" 9 rfl
  exact h.2.1 0 rfl

end Todo

namespace Todo

/-- C7 claim as stated is false: a legacy function-tool invocation with
the ambient context unset raises `RuntimeError` out of the tool instead of
returning an error dictionary. -/
theorem C7_counterexample_context_raises :
    ctx_complete_task none [] "abc123" 0 = (.raised ctxNotSetMsg, []) ∧
    (∀ d : CompleteToolDict, ToolOutcome.raised (α := CompleteToolDict) ctxNotSetMsg ≠ .ret d) := by
  constructor
  · rfl
  · intro d h
    cases h

/-- C7 amended: the phase-2 MCP tools (explicit `user_id`, own session)
always return a structured dictionary — never a fault — and an
unparseable task identifier produces the `Task not found` error object in
`complete`, `delete` and `update` (`update` reports `No updates provided`
first when both fields are absent); the legacy function tools behave
identically once the context is set, but raise `RuntimeError` whenever it
is not. -/
theorem C7_amended_tools_return_dicts
    (s : List Task) (fresh now : Nat) (uid title description status tid : String)
    (ot od : Option String) :
    (∃ v, (mcp_add_task s fresh now uid title description).1 = .ret v) ∧
    (∃ v, (mcp_list_tasks s uid status).1 = .ret v) ∧
    (∃ v, (mcp_complete_task s uid tid now).1 = .ret v) ∧
    (∃ v, (mcp_delete_task s uid tid).1 = .ret v) ∧
    (∃ v, (mcp_update_task s uid tid ot od now).1 = .ret v) ∧
    (parseUUID tid = none →
      (mcp_complete_task s uid tid now).1 = .ret (.errNotFound tid) ∧
      (mcp_delete_task s uid tid).1 = .ret (.errNotFound tid) ∧
      (∀ w, (mcp_update_task s uid tid (some w) od now).1 = .ret (.errNotFound tid))) ∧
    (ctx_complete_task none s tid now = (.raised ctxNotSetMsg, s)) ∧
    (ctx_add_task (some uid) s fresh now title description =
        mcp_add_task s fresh now uid title description ∧
      ctx_list_tasks (some uid) s status = mcp_list_tasks s uid status ∧
      ctx_complete_task (some uid) s tid now = mcp_complete_task s uid tid now ∧
      ctx_delete_task (some uid) s tid = mcp_delete_task s uid tid ∧
      ctx_update_task (some uid) s tid ot od now = mcp_update_task s uid tid ot od now) := by
  refine ⟨?_, ?_, ?_, ?_, ?_, ?_, rfl, rfl, rfl, rfl, rfl, rfl⟩
  · unfold mcp_add_task
    split <;> exact ⟨_, rfl⟩
  · exact ⟨_, rfl⟩
  · unfold mcp_complete_task
    cases parseUUID tid with
    | none => exact ⟨_, rfl⟩
    | some ptid =>
      dsimp only
      rcases update_task s ptid uid [("status", FieldValue.status .completed)] now with ⟨r, s2⟩
      cases r <;> exact ⟨_, rfl⟩
  · unfold mcp_delete_task
    cases parseUUID tid with
    | none => exact ⟨_, rfl⟩
    | some ptid =>
      dsimp only
      cases get_task s uid ptid with
      | none => exact ⟨_, rfl⟩
      | some t =>
        dsimp only
        rcases delete_task s ptid uid with ⟨ok, s2⟩
        cases ok <;> exact ⟨_, rfl⟩
  · unfold mcp_update_task
    split
    · exact ⟨_, rfl⟩
    · cases parseUUID tid with
      | none => exact ⟨_, rfl⟩
      | some ptid =>
        dsimp only
        split
        · exact ⟨_, rfl⟩
        · rcases update_task s ptid uid _ now with ⟨r, s2⟩
          cases r <;> exact ⟨_, rfl⟩
  · intro hp
    refine ⟨?_, ?_, ?_⟩
    · unfold mcp_complete_task
      rw [hp]
    · unfold mcp_delete_task
      rw [hp]
    · intro w
      unfold mcp_update_task
      rw [hp]
      simp

/-- Concrete instantiation of `C7_amended_tools_return_dicts`. -/
theorem C7_amended_tools_return_dicts_witness :
    (mcp_complete_task [] "u" "abc123" 0).1 =
      .ret (CompleteToolDict.errNotFound "abc123") ∧
    (mcp_delete_task [] "u" "abc123").1 =
      .ret (DeleteToolDict.errNotFound "abc123") := by
  have h := C7_amended_tools_return_dicts [] 1 2 "u" "t" "d" "all" "abc123"
    (some "w") none
  have h2 := (h.2.2.2.2.2.1) rfl
  exact ⟨h2.1, h2.2.1⟩

end Todo

namespace Todo

/-! ### Theory of the LIKE matcher -/

/-- A term free of the LIKE metacharacters and of the escape character. -/
def noWildL (l : List Char) : Prop :=
  ∀ c ∈ l, c ≠ '%' ∧ c ≠ '_' ∧ c ≠ '\\'

/-- Sufficient fuel computes the same value as the canonical entry point. -/
theorem likeMatchF_congr : ∀ (f g : Nat) (p s : List Char),
    p.length + s.length < f → p.length + s.length < g →
    likeMatchF f p s = likeMatchF g p s := by
  intro f
  induction f with
  | zero => intro g p s hf hg; omega
  | succ f ih =>
    intro g p s hf hg
    cases g with
    | zero => omega
    | succ g =>
      cases p with
      | nil => rfl
      | cons p0 ps =>
        simp only [List.length_cons] at hf hg
        by_cases h1 : p0 = '%'
        · subst h1
          cases s with
          | nil =>
            simp only [likeMatchF, if_pos rfl]
            exact ih g ps [] (by simp at hf ⊢; omega) (by simp at hg ⊢; omega)
          | cons c cs =>
            simp only [likeMatchF, if_pos rfl]
            rw [ih g ps (c :: cs) (by simp at hf ⊢; omega) (by simp at hg ⊢; omega),
              ih g ('%' :: ps) cs (by simp at hf ⊢; omega) (by simp at hg ⊢; omega)]
            simp
        · by_cases h2 : p0 = '_'
          · subst h2
            cases s with
            | nil => simp [likeMatchF]
            | cons c cs =>
              simp only [likeMatchF, h1, if_neg, if_pos rfl, reduceCtorEq]
              exact ih g ps cs (by simp at hf ⊢; omega) (by simp at hg ⊢; omega)
          · by_cases h3 : p0 = '\\'
            · subst h3
              cases ps with
              | nil => cases s <;> simp [likeMatchF]
              | cons pp ps2 =>
                cases s with
                | nil => simp [likeMatchF]
                | cons c cs =>
                  simp only [likeMatchF, h1, h2, if_neg, if_pos rfl, reduceCtorEq]
                  rw [ih g ps2 cs (by simp at hf ⊢; omega) (by simp at hg ⊢; omega)]
                  simp
            · cases s with
              | nil => simp [likeMatchF, h1, h2, h3]
              | cons c cs =>
                simp only [likeMatchF, h1, h2, h3, if_neg]
                rw [ih g ps cs (by simp at hf ⊢; omega) (by simp at hg ⊢; omega)]
                simp

/-- Any sufficient fuel computes `likeMatch`. -/
theorem likeMatchF_eq_likeMatch (f : Nat) (p s : List Char)
    (hf : p.length + s.length < f) :
    likeMatchF f p s = likeMatch p s :=
  likeMatchF_congr f (p.length + s.length + 1) p s hf (by omega)

/-- A wildcard-free pattern followed by `%` matches exactly the strings it
prefixes. -/
theorem likeMatchF_lit (t : List Char) (ht : noWildL t) :
    ∀ (s : List Char) (f : Nat), t.length + 1 + s.length < f →
      likeMatchF f (t ++ ['%']) s = t.isPrefixOf s := by
  induction t with
  | nil =>
    intro s
    induction s with
    | nil =>
      intro f hf
      cases f with
      | zero => omega
      | succ f' => simp [likeMatchF]
    | cons c cs ih =>
      intro f hf
      cases f with
      | zero => omega
      | succ f' =>
        have hih := ih f' (by simp at hf ⊢; omega)
        simp only [List.nil_append] at hih
        simp [List.isPrefixOf] at hih
        simp [likeMatchF, hih, List.isPrefixOf]
  | cons a t' iht =>
    have ha := ht a (List.mem_cons_self a t')
    have ht' : noWildL t' := fun c hc => ht c (List.mem_cons_of_mem a hc)
    intro s f hf
    cases f with
    | zero => omega
    | succ f' =>
      cases s with
      | nil =>
        simp [likeMatchF, ha.1, ha.2.1, ha.2.2, List.isPrefixOf]
      | cons c cs =>
        have hih := iht ht' cs f' (by simp at hf ⊢; omega)
        simp [likeMatchF, ha.1, ha.2.1, ha.2.2, List.isPrefixOf, hih]

/-- A leading `%` matches iff some suffix matches the rest of the pattern. -/
theorem likeMatchF_pct (ps : List Char) :
    ∀ (s : List Char) (f : Nat), ps.length + 1 + s.length < f →
      (likeMatchF f ('%' :: ps) s = true ↔
        ∃ k, likeMatch ps (s.drop k) = true) := by
  intro s
  induction s with
  | nil =>
    intro f hf
    cases f with
    | zero => omega
    | succ f' =>
      have h0 : likeMatchF (f' + 1) ('%' :: ps) [] = likeMatchF f' ps [] := by
        simp [likeMatchF]
      rw [h0, likeMatchF_eq_likeMatch f' ps [] (by simp at hf ⊢; omega)]
      constructor
      · intro h; exact ⟨0, h⟩
      · rintro ⟨k, h⟩; simpa using h
  | cons c cs ih =>
    intro f hf
    cases f with
    | zero => omega
    | succ f' =>
      have hih := ih f' (by simp at hf ⊢; omega)
      have h0 : likeMatchF (f' + 1) ('%' :: ps) (c :: cs) =
          (likeMatchF f' ps (c :: cs) || likeMatchF f' ('%' :: ps) cs) := by
        simp [likeMatchF]
      rw [h0, likeMatchF_eq_likeMatch f' ps (c :: cs) (by simp at hf ⊢; omega)]
      simp only [Bool.or_eq_true]
      constructor
      · rintro (h | h)
        · exact ⟨0, by simpa using h⟩
        · obtain ⟨k, hk⟩ := hih.mp h
          exact ⟨k + 1, by simpa using hk⟩
      · rintro ⟨k, hk⟩
        cases k with
        | zero => exact Or.inl (by simpa using hk)
        | succ k => exact Or.inr (hih.mpr ⟨k, by simpa using hk⟩)

/-- Reference substring test as an existential over dropped prefixes. -/
theorem isSub_iff (n : List Char) :
    ∀ h, (isSub n h = true ↔ ∃ k, n.isPrefixOf (h.drop k) = true) := by
  intro h
  induction h with
  | nil =>
    simp only [isSub, List.drop_nil]
    cases n <;> simp [List.isPrefixOf]
  | cons c cs ih =>
    simp only [isSub, Bool.or_eq_true]
    constructor
    · rintro (h1 | h1)
      · exact ⟨0, by simpa using h1⟩
      · obtain ⟨k, hk⟩ := ih.mp h1
        exact ⟨k + 1, by simpa using hk⟩
    · rintro ⟨k, hk⟩
      cases k with
      | zero => exact Or.inl (by simpa using hk)
      | succ k => exact Or.inr (ih.mpr ⟨k, by simpa using hk⟩)

/-- On wildcard-free terms the `%term%` LIKE pattern is exactly the
substring test. -/
theorem likeMatch_noWild_eq_isSub (t : List Char) (ht : noWildL t) (s : List Char) :
    likeMatch ('%' :: (t ++ ['%'])) s = isSub t s := by
  rw [Bool.eq_iff_iff]
  unfold likeMatch
  rw [likeMatchF_pct (t ++ ['%']) s _ (by simp)]
  rw [isSub_iff]
  constructor
  · rintro ⟨k, hk⟩
    refine ⟨k, ?_⟩
    unfold likeMatch at hk
    rwa [likeMatchF_lit t ht _ _ (by simp)] at hk
  · rintro ⟨k, hk⟩
    refine ⟨k, ?_⟩
    unfold likeMatch
    rwa [likeMatchF_lit t ht _ _ (by simp)]

end Todo

namespace Todo

set_option maxHeartbeats 1000000 in
/-- ASCII lowering never produces a LIKE metacharacter or the escape
character. -/
theorem toLower_not_special (c : Char) (h1 : c ≠ '%') (h2 : c ≠ '_') (h3 : c ≠ '\\') :
    Char.toLower c ≠ '%' ∧ Char.toLower c ≠ '_' ∧ Char.toLower c ≠ '\\' := by
  unfold Char.toLower
  simp only []
  split_ifs with h
  · obtain ⟨ha, hb⟩ := h
    set n := c.toNat with hn
    interval_cases n <;> exact ⟨by decide, by decide, by decide⟩
  · exact ⟨h1, h2, h3⟩

/-- Lowering a wildcard-free term keeps it wildcard-free. -/
theorem noWildL_map_toLower (l : List Char) (h : noWildL l) :
    noWildL (l.map Char.toLower) := by
  intro c hc
  obtain ⟨a, ha, rfl⟩ := List.mem_map.mp hc
  have := h a ha
  exact toLower_not_special a this.1 this.2.1 this.2.2

/-- The `%term%` pattern lowers to the `%`-wrapped lowered term. -/
theorem searchPattern_map_toLower (term : String) :
    (searchPattern term).map Char.toLower =
      '%' :: ((term.data.map Char.toLower) ++ ['%']) := by
  simp [searchPattern, show Char.toLower '%' = '%' from rfl]

/-- On wildcard-free terms the endpoint search predicate coincides with
the spec substring predicate. -/
theorem searchHit_eq_spec (t : Task) (term : String)
    (hterm : noWildL term.data) :
    searchHit t term = searchHitSpec t term := by
  have hmap := noWildL_map_toLower term.data hterm
  unfold searchHit searchHitSpec ilike containsCI
  rw [searchPattern_map_toLower]
  simp only [likeMatch_noWild_eq_isSub _ hmap]

/-- C3 claim as stated is false: a search term containing a LIKE
metacharacter is not matched as a literal substring — the term `%`
matches a task whose title does not contain a percent sign at all,
although it is non-empty after trimming and so acts as a filter. -/
theorem C3_counterexample_wildcard :
    list_tasks [⟨1, "u", "abc", none, .pending, 0, 0⟩] "u" 0 20 none (some "%")
        .created_at .desc = [⟨1, "u", "abc", none, .pending, 0, 0⟩] ∧
    list_tasks_specPipeline [⟨1, "u", "abc", none, .pending, 0, 0⟩] "u" 0 20 none
        (some "%") .created_at .desc = [] ∧
    pyStrip "%" = "%" ∧ ("%" : String) ≠ "" := by
  refine ⟨rfl, rfl, rfl, by decide⟩

/-- C3 amended: the list operation is the pipeline the spec describes —
owner scope, then status equality, then the search filter when the
trimmed term is non-empty, then sort, then offset/limit — with the search
step being a case-insensitive substring match whenever the term contains
no LIKE metacharacter (`%`, `_`) and no escape character; terms containing
those characters are interpreted as LIKE patterns instead. -/
theorem C3_amended_pipeline
    (s : List Task) (uid : String) (offset limit : Nat)
    (status : Option TaskStatus) (search : Option String)
    (sort : SortField) (ord : SortOrder)
    (hsearch : ∀ srch, search = some srch → noWildL (pyStrip srch).data) :
    list_tasks s uid offset limit status search sort ord =
      list_tasks_specPipeline s uid offset limit status search sort ord := by
  unfold list_tasks list_tasks_specPipeline
  cases search with
  | none => rfl
  | some srch =>
    have hterm := hsearch srch rfl
    dsimp only
    by_cases hne : pyStrip srch = ""
    · simp [hne]
    · simp only [hne, ne_eq, not_false_iff, if_pos]
      rw [List.filter_congr (fun t _ => searchHit_eq_spec t (pyStrip srch) hterm)]

/-- Concrete instantiation of `C3_amended_pipeline`: search `rep` on two
tasks, sorted by title ascending. -/
theorem C3_amended_pipeline_witness :
    list_tasks [⟨1, "u", "Weekly Report", none, .pending, 0, 0⟩,
        ⟨2, "u", "Groceries", none, .pending, 1, 1⟩] "u" 0 20 none (some "rep")
      .title .asc =
    list_tasks_specPipeline [⟨1, "u", "Weekly Report", none, .pending, 0, 0⟩,
        ⟨2, "u", "Groceries", none, .pending, 1, 1⟩] "u" 0 20 none (some "rep")
      .title .asc := by
  exact C3_amended_pipeline _ "u" 0 20 none (some "rep") .title .asc
    (by intro srch h; cases h; unfold noWildL; decide)

end Todo

namespace Todo

/-- Two permutations of one multiset that are both strictly descending in
a numeric key are equal. -/
theorem perm_strictSorted_eq {α : Type} (key : α → Nat) :
    ∀ {l₁ l₂ : List α}, l₁.Perm l₂ →
      l₁.Pairwise (fun a b => key b < key a) →
      l₂.Pairwise (fun a b => key b < key a) → l₁ = l₂ := by
  intro l₁
  induction l₁ with
  | nil =>
    intro l₂ hp _ _
    exact (hp.symm.eq_nil).symm
  | cons a t₁ ih =>
    intro l₂ hp h₁ h₂
    cases l₂ with
    | nil => exact (List.cons_ne_nil a t₁ hp.eq_nil).elim
    | cons b t₂ =>
      have hab : a = b := by
        by_contra hne
        have ha2 : a ∈ b :: t₂ := hp.mem_iff.mp (List.mem_cons_self a t₁)
        have hb1 : b ∈ a :: t₁ := hp.mem_iff.mpr (List.mem_cons_self b t₂)
        have ha2m : a ∈ t₂ := by
          rcases List.mem_cons.mp ha2 with h | h
          · exact absurd h hne
          · exact h
        have hb1m : b ∈ t₁ := by
          rcases List.mem_cons.mp hb1 with h | h
          · exact absurd h.symm hne
          · exact h
        have hk1 : key b < key a := (List.pairwise_cons.mp h₁).1 b hb1m
        have hk2 : key a < key b := (List.pairwise_cons.mp h₂).1 a ha2m
        omega
      subst hab
      have hp2 : t₁.Perm t₂ := hp.cons_inv
      exact congrArg (a :: ·)
        (ih hp2 (List.pairwise_cons.mp h₁).2 (List.pairwise_cons.mp h₂).2)

/-- When the timestamps of the conversation are pairwise distinct, the
descending sort is exactly the reverse of the ascending sort. -/
theorem msgSort_desc_eq_reverse_asc (l : List Message)
    (hk : l.Pairwise (fun a b => a.created_at ≠ b.created_at)) :
    l.insertionSort (fun a b => msgDesc a b = true) =
      (l.insertionSort (fun a b => msgAsc a b = true)).reverse := by
  haveI ht1 : IsTotal Message (fun a b => msgDesc a b = true) :=
    ⟨fun a b => by simp [msgDesc]; omega⟩
  haveI ht2 : IsTrans Message (fun a b => msgDesc a b = true) :=
    ⟨fun a b c h1 h2 => by simp [msgDesc] at h1 h2 ⊢; omega⟩
  haveI ht3 : IsTotal Message (fun a b => msgAsc a b = true) :=
    ⟨fun a b => by simp [msgAsc]; omega⟩
  haveI ht4 : IsTrans Message (fun a b => msgAsc a b = true) :=
    ⟨fun a b c h1 h2 => by simp [msgAsc] at h1 h2 ⊢; omega⟩
  have hsymm : ∀ {x y : Message},
      x.created_at ≠ y.created_at → y.created_at ≠ x.created_at :=
    fun h => Ne.symm h
  apply perm_strictSorted_eq (fun m => m.created_at)
  · exact (List.perm_insertionSort _ l).trans
      ((List.perm_insertionSort _ l).symm.trans (List.reverse_perm _).symm)
  · have hs := List.sorted_insertionSort (fun a b => msgDesc a b = true) l
    have hne := (List.Perm.pairwise_iff hsymm (List.perm_insertionSort
      (fun a b => msgDesc a b = true) l)).mpr hk
    refine (hs.and hne).imp ?_
    intro a b hab
    have h1 : b.created_at ≤ a.created_at := by
      have := hab.1
      simpa [msgDesc] using this
    have h2 := hab.2
    omega
  · rw [List.pairwise_reverse]
    have hs := List.sorted_insertionSort (fun a b => msgAsc a b = true) l
    have hne := (List.Perm.pairwise_iff hsymm (List.perm_insertionSort
      (fun a b => msgAsc a b = true) l)).mpr hk
    refine (hs.and hne).imp ?_
    intro a b hab
    have h1 : a.created_at ≤ b.created_at := by
      have := hab.1
      simpa [msgAsc] using this
    have h2 := hab.2
    omega

/-- C9 claim as stated is false: with two messages bearing the same
timestamp (as user/assistant messages written in one transaction do), the
take-newest-then-reverse computation returns the tied pair in the
opposite order from the last-n of the chronological listing. -/
theorem C9_counterexample_tied_timestamps :
    get_last_n [⟨1, 5, "user", "a", 10⟩, ⟨2, 5, "assistant", "b", 10⟩] 5 2 =
      [⟨2, 5, "assistant", "b", 10⟩, ⟨1, 5, "user", "a", 10⟩] ∧
    lastN_specChronological
        [⟨1, 5, "user", "a", 10⟩, ⟨2, 5, "assistant", "b", 10⟩] 5 2 =
      [⟨1, 5, "user", "a", 10⟩, ⟨2, 5, "assistant", "b", 10⟩] ∧
    ([⟨2, 5, "assistant", "b", 10⟩, ⟨1, 5, "user", "a", 10⟩] :
        List Message) ≠
      [⟨1, 5, "user", "a", 10⟩, ⟨2, 5, "assistant", "b", 10⟩] := by
  refine ⟨by decide, by decide, by decide⟩

/-- C9 amended: whenever the messages of the conversation have pairwise
distinct timestamps, taking the `n` newest (descending, limit `n`) and
reversing returns exactly the last `n` of the chronological listing; on
tied timestamps the two computations may order the tied messages
differently. -/
theorem C9_amended_last_n
    (msgs : List Message) (conversation_id n : Nat)
    (hdist : (msgs.filter (fun m => m.conversation_id == conversation_id)).Pairwise
      (fun a b => a.created_at ≠ b.created_at)) :
    get_last_n msgs conversation_id n =
      lastN_specChronological msgs conversation_id n := by
  unfold get_last_n lastN_specChronological get_by_conversation
  dsimp only
  rw [msgSort_desc_eq_reverse_asc _ hdist, List.take_reverse, List.reverse_reverse]

/-- Concrete instantiation of `C9_amended_last_n`. -/
theorem C9_amended_last_n_witness :
    get_last_n [⟨1, 5, "user", "a", 10⟩, ⟨2, 5, "assistant", "b", 11⟩,
        ⟨3, 5, "user", "c", 12⟩] 5 2 =
      lastN_specChronological [⟨1, 5, "user", "a", 10⟩,
        ⟨2, 5, "assistant", "b", 11⟩, ⟨3, 5, "user", "c", 12⟩] 5 2 :=
  C9_amended_last_n _ 5 2 (by decide)

end Todo
